import Mathlib

/-!
Verification of the telemetry-processing control loop of the MPC project
(`src/main.cpp`). Doubles are modelled as real numbers; the external
helpers (`helpers.h`: `hasData`, `polyfit`, `polyeval`) and the optimizer
(`MPC::Solve`) are not part of `src/`, so they are modelled from the spec
or taken as parameters. The `onMessage` handler is embedded as a pure
function of the inbound frame and the optimizer function (the lambda in
the source captures only the `MPC` instance).
-/

namespace MpcProject

/-- `deg2rad` from `main.cpp`: `x * pi() / 180`. -/
noncomputable def deg2rad (x : ℝ) : ℝ := x * Real.pi / 180

/-- The waypoint transform of `main.cpp` lines 56-61: for a waypoint `w`,
`delta_x = w.1 - px`, `delta_y = w.2 - py`, and the output point is
`(delta_x*cos(-psi) - delta_y*sin(-psi), delta_x*sin(-psi) + delta_y*cos(-psi))`. -/
noncomputable def frameTransform (px py psi : ℝ) (w : ℝ × ℝ) : ℝ × ℝ :=
  ((w.1 - px) * Real.cos (-psi) - (w.2 - py) * Real.sin (-psi),
   (w.1 - px) * Real.sin (-psi) + (w.2 - py) * Real.cos (-psi))

/-- Euclidean distance between two points of the plane. -/
noncomputable def euclidDist (p q : ℝ × ℝ) : ℝ :=
  Real.sqrt ((p.1 - q.1) ^ 2 + (p.2 - q.2) ^ 2)

/-- Modelled from the spec: `polyeval` from `helpers.h` (not under `src/`),
evaluation at `x` of the polynomial whose coefficients are listed lowest
order first, `c0 + c1*x + c2*x^2 + ...` (written in Horner form). -/
noncomputable def polyeval : List ℝ → ℝ → ℝ
  | [], _ => 0
  | c :: rest, x => c + x * polyeval rest x

/-- The cross-track error of `main.cpp` line 72: `cte = polyeval(coeffs, 0)`. -/
noncomputable def cteOf (coeffs : List ℝ) : ℝ := polyeval coeffs 0

/-- The heading error of `main.cpp` line 73: `epsi = -atan(coeffs[1])`. -/
noncomputable def epsiOf (coeffs : List ℝ) : ℝ := -Real.arctan (coeffs.getD 1 0)

/-- The emitted steering value of `main.cpp` lines 81 and 87:
`steer_value = -vars[0]` divided by `deg2rad(25)`. No clamping is applied. -/
noncomputable def steeringAngle (vars : List ℝ) : ℝ :=
  -(vars.getD 0 0) / deg2rad 25

/-- The emitted throttle value of `main.cpp` lines 82 and 88: `vars[1]`. -/
noncomputable def throttleOf (vars : List ℝ) : ℝ := vars.getD 1 0

/-- The predicted-trajectory extraction loop of `main.cpp` lines 99-102:
`for (int i = 2; i < vars.size(); i + 2) { push vars[i]; push vars[i+1]; }`.
The increment expression `i + 2` has no side effect, so `i` never changes;
the loop is modelled with explicit fuel, `none` meaning the fuel ran out
before the loop condition failed. Out-of-range reads (`vars[i+1]`) are
modelled by `getD` with default 0. -/
def mpcExtract (vars : List ℝ) : ℕ → ℕ → List ℝ → List ℝ → Option (List ℝ × List ℝ)
  | 0, _, _, _ => none
  | fuel + 1, i, xs, ys =>
    if i < vars.length then
      mpcExtract vars fuel i (xs ++ [vars.getD i 0]) (ys ++ [vars.getD (i + 1) 0])
    else
      some (xs, ys)

/-- Fit failure modes. Modelled from the spec: the fitter fails with
`InsufficientPointsError` for fewer than `order + 1` points and with
`SingularFitError` for a degenerate point set. -/
inductive FitError
  | insufficientPoints
  | singularFit
deriving DecidableEq

/-- `xs` contains at least `n` pairwise-distinct values (a sublist of
length `n` with pairwise different entries). -/
def hasDistinct (xs : List ℝ) (n : ℕ) : Prop :=
  ∃ d : List ℝ, d.Sublist xs ∧ d.length = n ∧ d.Pairwise (fun a b => a ≠ b)

/-- Gram matrix of the Vandermonde design matrix for a degree-`order` fit:
entry `(j, k)` is the power sum `Σ_p p^(j+k)` over the sample x-values. -/
noncomputable def gram (xs : List ℝ) (order : ℕ) :
    Matrix (Fin (order + 1)) (Fin (order + 1)) ℝ :=
  Matrix.of fun j k => (xs.map fun p => p ^ ((j : ℕ) + (k : ℕ))).sum

/-- Right-hand side of the normal equations: entry `j` is `Σ y_i * x_i^j`. -/
noncomputable def momentVec (xs ys : List ℝ) (order : ℕ) : Fin (order + 1) → ℝ :=
  fun j => ((xs.zip ys).map fun p => p.2 * p.1 ^ (j : ℕ)).sum

/-- Coefficient `j` of the least-squares solution of the normal equations. -/
noncomputable def lsqCoeff (xs ys : List ℝ) (order : ℕ) (j : Fin (order + 1)) : ℝ :=
  Matrix.mulVec (gram xs order)⁻¹ (momentVec xs ys order) j

section
open Classical

/-- Modelled from the spec: `polyfit` from `helpers.h` (not under `src/`).
Degree-`order` least-squares fit of `ys` against `xs` via the normal
equations of the Vandermonde design matrix; returns `order + 1` coefficients
lowest order first. Fails with `insufficientPoints` when fewer than
`order + 1` points are supplied (under-determined fit) and with
`singularFit` when the point set is degenerate (fewer than `order + 1`
distinct x-values). -/
noncomputable def polyfit (xs ys : List ℝ) (order : ℕ) : Except FitError (List ℝ) :=
  if xs.length < order + 1 then .error .insufficientPoints
  else if ¬ hasDistinct xs (order + 1) then .error .singularFit
  else .ok (List.ofFn fun j : Fin (order + 1) => lsqCoeff xs ys order j)

end

/-- The payload fields of a `telemetry` event (`main.cpp` lines 44-49). -/
structure Telemetry where
  ptsx : List ℝ
  ptsy : List ℝ
  x : ℝ
  y : ℝ
  psi : ℝ
  speed : ℝ

/-- Modelled from the spec: the result of `hasData` plus the JSON codec
(`helpers.h` / `json.hpp`, not under `src/`). The payload after the marker
is either empty (`hasData` returned `""`) or a parsed
`[event_name, event_data]` pair. -/
inductive Payload
  | empty
  | event (name : String) (t : Telemetry)

/-- An inbound websocket frame, abstracted to what `main.cpp` lines 37-42
inspect: whether `sdata.size() > 2 && sdata[0] == '4' && sdata[1] == '2'`
(the 2-character event marker), and the payload extracted by `hasData`. -/
structure Frame where
  markerOk : Bool
  payload : Payload

/-- An outbound websocket message: either the `steer` event with its
payload fields (`main.cpp` lines 84-112) or the `manual` event with an
empty payload (`main.cpp` line 128). -/
inductive OutMsg
  | steer (steering_angle throttle : ℝ) (mpc_x mpc_y next_x next_y : List ℝ)
  | manual

/-- Result of one handler invocation: the messages sent, whether
`mpc.Solve` was invoked, and whether the handler diverged (the extraction
loop never terminated, so control never reached `ws.send`). -/
structure HandlerResult where
  sent : List OutMsg
  solverCalled : Bool
  diverged : Bool

/-- The transformed waypoints of `main.cpp` lines 56-61 (the in-place loop
rewrites `ptsx`/`ptsy`, whose lengths are equal by the telemetry
invariant; modelled by mapping `frameTransform` over the zipped lists). -/
noncomputable def txPts (t : Telemetry) : List (ℝ × ℝ) :=
  (t.ptsx.zip t.ptsy).map (frameTransform t.x t.y t.psi)

/-- x-coordinates of the transformed waypoints (`ptsx` after the loop). -/
noncomputable def txX (t : Telemetry) : List ℝ := (txPts t).map Prod.fst

/-- y-coordinates of the transformed waypoints (`ptsy` after the loop). -/
noncomputable def txY (t : Telemetry) : List ℝ := (txPts t).map Prod.snd

/-- The optimizer call of `main.cpp` lines 75-78: the 6-entry state vector
`[0, 0, 0, v, cte, epsi]` is passed, with the coefficients, to
`mpc.Solve`; the result is the `vars` sequence. -/
noncomputable def solverVars (solve : List ℝ → List ℝ → List ℝ) (t : Telemetry)
    (coeffs : List ℝ) : List ℝ :=
  solve [0, 0, 0, t.speed, cteOf coeffs, epsiOf coeffs] coeffs

/-- The `telemetry` branch of the handler (`main.cpp` lines 44-124):
transform the waypoints, fit a degree-3 polynomial, compute `cte` and
`epsi`, build the 6-entry state vector, call the optimizer, assemble the
predicted path, and send the `steer` message. A fit failure surfaces
without calling the optimizer (spec section 7); if the extraction loop
diverges, the solver was called but no message is sent. -/
noncomputable def telemetryStep (solve : List ℝ → List ℝ → List ℝ) (fuel : ℕ)
    (t : Telemetry) : HandlerResult :=
  match polyfit (txX t) (txY t) 3 with
  | .error _ => ⟨[], false, false⟩
  | .ok coeffs =>
    match mpcExtract (solverVars solve t coeffs) fuel 2 [] [] with
    | none => ⟨[], true, true⟩
    | some (mx, my) =>
      ⟨[OutMsg.steer (steeringAngle (solverVars solve t coeffs))
          (throttleOf (solverVars solve t coeffs)) mx my (txX t) (txY t)],
       true, false⟩

/-- The `onMessage` handler of `main.cpp` lines 30-132 as a pure function
of the optimizer function, the loop fuel, and the inbound frame: frames
without the marker are ignored; an empty payload triggers the `manual`
fallback; a `telemetry` event runs the control pipeline; any other event
name does nothing. -/
noncomputable def onMessage (solve : List ℝ → List ℝ → List ℝ) (fuel : ℕ)
    (f : Frame) : HandlerResult :=
  if f.markerOk then
    match f.payload with
    | .empty => ⟨[OutMsg.manual], false, false⟩
    | .event name t =>
      if name = "telemetry" then telemetryStep solve fuel t
      else ⟨[], false, false⟩
  else ⟨[], false, false⟩

/-- A run of the handler over a sequence of inbound frames, in order. -/
noncomputable def runHandler (solve : List ℝ → List ℝ → List ℝ) (fuel : ℕ) :
    List Frame → List HandlerResult
  | [] => []
  | f :: fs => onMessage solve fuel f :: runHandler solve fuel fs

/-- The extraction loop never returns while the loop condition holds at the
(unchanging) index `i`, whatever the fuel and the accumulators. -/
theorem mpcExtract_stuck (vars : List ℝ) (fuel : ℕ) :
    ∀ i xs ys, i < vars.length → mpcExtract vars fuel i xs ys = none := by
  induction fuel with
  | zero => intro i xs ys _; rfl
  | succ n ih =>
    intro i xs ys h
    rw [mpcExtract, if_pos h]
    exact ih i _ _ h

/-- C3: the waypoint transform is rigid: the Euclidean distance between the
images of any two points equals the distance between the originals. -/
theorem frameTransform_rigid (px py psi : ℝ) (p q : ℝ × ℝ) :
    euclidDist (frameTransform px py psi p) (frameTransform px py psi q) =
      euclidDist p q := by
  unfold euclidDist frameTransform
  congr 1
  have h := Real.sin_sq_add_cos_sq (-psi)
  dsimp only
  linear_combination ((p.1 - q.1) ^ 2 + (p.2 - q.2) ^ 2) * h

/-- C4: the transform maps the vehicle's own position to the origin,
whatever the heading. -/
theorem frameTransform_origin (px py psi : ℝ) :
    frameTransform px py psi (px, py) = (0, 0) := by
  simp [frameTransform]

/-- C5: the cross-track error is the polynomial evaluated at 0, which is
exactly the constant coefficient `coeffs[0]`. -/
theorem cte_eq_c0 (c0 c1 c2 c3 : ℝ) : cteOf [c0, c1, c2, c3] = c0 := by
  simp [cteOf, polyeval]

/-- C6: the heading error equals minus the arctangent of the linear
coefficient `coeffs[1]`. -/
theorem epsi_eq_neg_atan_c1 (c0 c1 c2 c3 : ℝ) :
    epsiOf [c0, c1, c2, c3] = -Real.arctan c1 := by
  simp [epsiOf]

/-- C1 (code bug): the predicted-path extraction loop never terminates on
any solver result with more than 2 entries, because the increment
expression `i + 2` never changes `i`: for every amount of fuel the loop is
still running. -/
theorem trajectoryLoop_diverges (vars : List ℝ) (fuel : ℕ)
    (h : 2 < vars.length) : mpcExtract vars fuel 2 [] [] = none :=
  mpcExtract_stuck vars fuel 2 [] [] h

/-- Witness for C1's theorem: on the 4-entry solver result
`[0, 0, 1, 1]` the loop is still running after 5 iterations of fuel. -/
theorem trajectoryLoop_diverges_on_input :
    mpcExtract [0, 0, 1, 1] 5 2 [] [] = none :=
  trajectoryLoop_diverges [0, 0, 1, 1] 5 (by norm_num)

/-- The maximal steering angle `deg2rad 25` is positive. -/
theorem deg2rad_25_pos : 0 < deg2rad 25 := by
  unfold deg2rad
  positivity

/-- C2 counterexample: for the solver result whose first entry is minus
twice the maximal steering angle, the emitted steering value is 2, outside
[-1, 1]: the code performs no clamping. -/
theorem steering_exceeds_one :
    1 < steeringAngle [-(2 * deg2rad 25), 0] := by
  have hd := deg2rad_25_pos
  have h2 : steeringAngle [-(2 * deg2rad 25), 0] = 2 := by
    unfold steeringAngle
    rw [List.getD_cons_zero, neg_neg, mul_div_assoc, div_self hd.ne', mul_one]
  rw [h2]
  norm_num

/-- C2 (amended): the emitted steering value equals
`-vars[0] / deg2rad 25` with no clamping, so it lies in [-1, 1] exactly
when `|vars[0]|` is at most `deg2rad 25`. -/
theorem steering_formula_and_bound (vars : List ℝ) :
    steeringAngle vars = -(vars.getD 0 0) / deg2rad 25 ∧
      (steeringAngle vars ∈ Set.Icc (-1 : ℝ) 1 ↔
        |vars.getD 0 0| ≤ deg2rad 25) := by
  have hd := deg2rad_25_pos
  refine ⟨rfl, ?_⟩
  rw [Set.mem_Icc, ← abs_le]
  unfold steeringAngle
  rw [abs_div, abs_neg, abs_of_pos hd, div_le_one hd]

/-- C7: an inbound frame that carries the event marker but whose payload
is empty produces exactly one `manual` event (with the empty payload the
constructor carries) and the optimizer is not invoked. -/
theorem manual_fallback (solve : List ℝ → List ℝ → List ℝ) (fuel : ℕ) :
    onMessage solve fuel ⟨true, Payload.empty⟩ =
      ⟨[OutMsg.manual], false, false⟩ := by
  rfl

/-- A successful fit: with at least 4 points and 4 distinct x-values,
`polyfit` at order 3 returns the normal-equation coefficients. -/
theorem polyfit_ok (xs ys : List ℝ) (h1 : 4 ≤ xs.length)
    (h2 : hasDistinct xs 4) :
    polyfit xs ys 3 =
      Except.ok (List.ofFn fun j : Fin (3 + 1) => lsqCoeff xs ys 3 j) := by
  have h2x : hasDistinct xs (3 + 1) := h2
  unfold polyfit
  rw [if_neg (by omega), if_neg (not_not_intro h2x)]

/-- C8: the degree-3 fit returns exactly 4 coefficients whenever it
succeeds (success is guaranteed given 4 points with distinct x-values);
with fewer than 4 points it fails deterministically with the
insufficient-points error; and a telemetry event with fewer than 4
waypoints never reaches the optimizer. -/
theorem polyfit_contract (xs ys : List ℝ) :
    (4 ≤ xs.length → hasDistinct xs 4 →
      ∃ cs, polyfit xs ys 3 = Except.ok cs ∧ cs.length = 4) ∧
    (xs.length < 4 → polyfit xs ys 3 = Except.error FitError.insufficientPoints) ∧
    (∀ (solve : List ℝ → List ℝ → List ℝ) (fuel : ℕ) (t : Telemetry),
      t.ptsx.length < 4 → (telemetryStep solve fuel t).solverCalled = false) := by
  refine ⟨?_, ?_, ?_⟩
  · intro hlen hdist
    exact ⟨_, polyfit_ok xs ys hlen hdist, by simp⟩
  · intro h
    have hx : xs.length < 3 + 1 := by omega
    unfold polyfit
    rw [if_pos hx]
  · intro solve fuel t ht
    have hx : (txX t).length < 3 + 1 := by
      have h1 : (txX t).length = min t.ptsx.length t.ptsy.length := by
        simp [txX, txPts]
      omega
    have hfit : polyfit (txX t) (txY t) 3 =
        Except.error FitError.insufficientPoints := by
      unfold polyfit
      rw [if_pos hx]
    simp only [telemetryStep, hfit]

/-- Witness for C8's theorem: four distinct points succeed with 4
coefficients; 2 points fail with the insufficient-points error; a
telemetry event with a single waypoint does not call the optimizer. -/
theorem polyfit_contract_on_inputs :
    (∃ cs, polyfit [0, 1, 2, 3] [0, 0, 0, 0] 3 = Except.ok cs ∧ cs.length = 4) ∧
    polyfit [0, 1] [0, 0] 3 = Except.error FitError.insufficientPoints ∧
    (telemetryStep (fun _ _ => []) 1 ⟨[0], [0], 0, 0, 0, 0⟩).solverCalled = false := by
  refine ⟨?_, ?_, ?_⟩
  · exact (polyfit_contract [0, 1, 2, 3] [0, 0, 0, 0]).1 (by norm_num)
      ⟨[0, 1, 2, 3], List.Sublist.refl _, rfl, by norm_num⟩
  · exact (polyfit_contract [0, 1] [0, 0]).2.1 (by norm_num)
  · exact (polyfit_contract [] []).2.2 (fun _ _ => []) 1 ⟨[0], [0], 0, 0, 0, 0⟩ (by norm_num)

/-- C9: when the optimizer returns exactly the 2 actuations and the fit
succeeded, the extraction loop body never runs (the loop condition fails
at once, so the handler terminates) and the outbound `steer` message
carries empty `mpc_x` and `mpc_y` sequences. -/
theorem solver_len2_empty_path (solve : List ℝ → List ℝ → List ℝ) (fuel : ℕ)
    (t : Telemetry)
    (hfit : ∃ cs, polyfit (txX t) (txY t) 3 = Except.ok cs)
    (hlen : ∀ st cs, (solve st cs).length = 2)
    (hfuel : 0 < fuel) :
    ∃ sa th, telemetryStep solve fuel t =
      ⟨[OutMsg.steer sa th [] [] (txX t) (txY t)], true, false⟩ := by
  obtain ⟨cs, hcs⟩ := hfit
  obtain ⟨n, rfl⟩ : ∃ n, fuel = n + 1 := ⟨fuel - 1, by omega⟩
  have h2 : (solverVars solve t cs).length = 2 := hlen _ _
  have hm : mpcExtract (solverVars solve t cs) (n + 1) 2 [] [] =
      some ([], []) := by
    rw [mpcExtract, if_neg (by omega)]
  simp only [telemetryStep, hcs, hm]
  exact ⟨_, _, rfl⟩

/-- Witness for C9's theorem: the identity pose with 4 straight waypoints
and a constant 2-entry solver result yields a `steer` message with empty
predicted-path sequences. -/
theorem solver_len2_empty_path_on_input :
    ∃ sa th, telemetryStep (fun _ _ => [0, 0]) 1
        ⟨[0, 1, 2, 3], [0, 0, 0, 0], 0, 0, 0, 0⟩ =
      ⟨[OutMsg.steer sa th [] []
          (txX ⟨[0, 1, 2, 3], [0, 0, 0, 0], 0, 0, 0, 0⟩)
          (txY ⟨[0, 1, 2, 3], [0, 0, 0, 0], 0, 0, 0, 0⟩)], true, false⟩ := by
  refine solver_len2_empty_path (fun _ _ => [0, 0]) 1 _ ?_ (fun _ _ => rfl)
    (by norm_num)
  have htx : txX ⟨[0, 1, 2, 3], [0, 0, 0, 0], 0, 0, 0, 0⟩ = [0, 1, 2, 3] := by
    simp [txX, txPts, frameTransform]
  rw [htx]
  exact ⟨_, polyfit_ok _ _ (by norm_num)
    ⟨[0, 1, 2, 3], List.Sublist.refl _, rfl, by norm_num⟩⟩

/-- C10: the handler is stateless across events: in a run over any
sequence of inbound frames, the result of the frame at any position equals
the result of handling that frame alone, whatever frames preceded or
followed it (for a fixed optimizer function). -/
theorem handler_stateless (solve : List ℝ → List ℝ → List ℝ) (fuel : ℕ)
    (pre post : List Frame) (f : Frame) :
    (runHandler solve fuel (pre ++ f :: post))[pre.length]? =
      some (onMessage solve fuel f) := by
  induction pre with
  | nil => simp [runHandler]
  | cons g gs ih => simpa [runHandler] using ih

end MpcProject
